import Mathlib

/-!
Verification of the AirFi session funding and settlement orchestration layer.

The definitions below are a shallow embedding of the Go source:
  - internal/perun/cell_splitter.go  (cell counting and splitting)
  - internal/perun/withdraw.go       (sweep of remaining wallet capacity)
  - the server session layer: createSessionFromWallet, processMicropayments,
    handleEndSession, handleExtendSession and the rate computation in NewServer.

Monetary amounts are modelled as Int (the Go code uses int64 and math/big.Int;
the used value ranges are far from the int64 boundary and big.Int is unbounded,
so Int with explicit truncated or Euclidean division is faithful).  Cell
capacities are modelled as Nat (Go uint64; all subtractions in the modelled
paths are guarded so no wraparound occurs).  Session identifiers are abstracted
to Nat.  Wall-clock times are abstract Int instants with a nanosecond scale.
-/

namespace AirFi

/-! ### Constants (cell_splitter.go, withdraw.go, config) -/

/-- SplitFee from cell_splitter.go: 0.001 CKB in shannons. -/
def SplitFee : Nat := 100000

/-- CellMinCapacity from cell_splitter.go: 61 CKB in shannons. -/
def CellMinCapacity : Nat := 6100000000

/-- MinCellCapacity used by withdraw.go (same value, 61 CKB in shannons,
defined elsewhere in the perun package; the test suite pins it to
6100000000). -/
def MinCellCapacity : Nat := 6100000000

/-- WithdrawFee from withdraw.go: 0.001 CKB in shannons. -/
def WithdrawFee : Nat := 100000

/-- Minimum capacity a cell needs so that SplitCell may select it. -/
def minSplitCapacity : Nat := 2 * CellMinCapacity + SplitFee

/-- Shannons per CKB. -/
def shannonsPerCKB : Int := 100000000

/-! ### Cell splitter (internal/perun/cell_splitter.go)

A wallet's relevant state is the list of capacities of its bare cells
(cells without a type script); SplitCell and EnsureMinimumCells only act
on those. -/

/-- One step of the selection loop in SplitCell: keep the largest cell seen
so far whose capacity is at least minSplitCapacity (strict comparison, so
the first of equal maxima is kept, as in the Go loop). -/
def pickStep (acc : Option Nat) (c : Nat) : Option Nat :=
  if minSplitCapacity ≤ c then
    match acc with
    | none => some c
    | some b => if b < c then some c else some b
  else acc

/-- Selection of the cell to split: the largest bare cell with capacity at
least minSplitCapacity, or none. -/
def pickSplittable (cells : List Nat) : Option Nat :=
  cells.foldl pickStep none

/-- Output capacities computed by SplitCell for a chosen cell: an even split
of (capacity - SplitFee), with the first half raised to CellMinCapacity when
the even half falls short. -/
def splitCapacities (c : Nat) : Nat × Nat :=
  let availableCapacity := c - SplitFee
  let cell1 := availableCapacity / 2
  let cell2 := availableCapacity - cell1
  if cell1 < CellMinCapacity then
    (CellMinCapacity, availableCapacity - CellMinCapacity)
  else
    (cell1, cell2)

/-- The plain even split of (capacity - SplitFee), i.e. the capacities
SplitCell computes before the minimum-capacity adjustment branch. -/
def splitCapacitiesEven (c : Nat) : Nat × Nat :=
  let availableCapacity := c - SplitFee
  (availableCapacity / 2, availableCapacity - availableCapacity / 2)

/-- SplitCell on the bare-cell multiset: pick the largest splittable cell,
replace it by the two outputs.  Returns none when no cell is splittable
(the Go function then fails with an insufficient-capacity error). -/
def SplitCell (cells : List Nat) : Option (List Nat) :=
  match pickSplittable cells with
  | none => none
  | some c =>
    let p := splitCapacities c
    some (cells.erase c ++ [p.1, p.2])

/-- The splitting loop of EnsureMinimumCells: while the bare-cell count is
below minCells, split and re-count.  The Nat fuel only bounds recursion;
every run in the claims terminates well within it.  The second component
counts submitted split transactions. -/
def ensureLoop : Nat → Nat → List Nat → Nat → Option (List Nat × Nat)
  | 0, _, _, _ => none
  | fuel + 1, minCells, cells, txs =>
    if cells.length < minCells then
      match SplitCell cells with
      | none => none
      | some cells2 => ensureLoop fuel minCells cells2 (txs + 1)
    else
      some (cells, txs)

/-- EnsureMinimumCells from cell_splitter.go, on the bare-cell capacities:
returns the final bare-cell list together with the number of split
transactions submitted, or none on failure. -/
def EnsureMinimumCells (minCells : Nat) (cells : List Nat) : Option (List Nat × Nat) :=
  if minCells ≤ cells.length then
    some (cells, 0)
  else if cells.length = 0 then
    none
  else
    ensureLoop (minCells + 1) minCells cells 0

/-! ### Withdrawer (internal/perun/withdraw.go) -/

/-- A live cell as seen by WithdrawAll: its capacity, whether it carries a
type script, and (an abstraction of) its lock script hash. -/
structure LiveCell where
  capacity : Nat
  hasTypeScript : Bool
  lockHash : Nat
deriving DecidableEq, Repr

/-- Result of WithdrawAll.  The submitted constructor carries the full
output list of the transaction (capacity and lock hash per output). -/
inductive WithdrawResult where
  | errNoCells : WithdrawResult
  | errNoWithdrawableCells : WithdrawResult
  | errInsufficientBalance (totalCapacity : Nat) : WithdrawResult
  | submitted (outputs : List (Nat × Nat)) : WithdrawResult
deriving DecidableEq, Repr

/-- The cells WithdrawAll selects as inputs: no type script and the lock
hash equal to the wallet's own. -/
def withdrawInputs (walletLockHash : Nat) (cells : List LiveCell) : List LiveCell :=
  cells.filter (fun c => !c.hasTypeScript && c.lockHash == walletLockHash)

/-- Total capacity of a wallet's bare cells, as summed by WithdrawAll. -/
def bareCapacitySum (walletLockHash : Nat) (cells : List LiveCell) : Nat :=
  ((withdrawInputs walletLockHash cells).map LiveCell.capacity).sum

/-- WithdrawAll from withdraw.go on the enumerated cells of a wallet:
fails when no cells exist, when no bare cell with the wallet's lock exists,
or when the summed capacity is at most WithdrawFee + MinCellCapacity;
otherwise submits a single-output transaction paying the sum minus the fee
to the destination lock. -/
def WithdrawAll (walletLockHash toLockHash : Nat) (cells : List LiveCell) : WithdrawResult :=
  if cells.length = 0 then
    .errNoCells
  else
    let inputs := withdrawInputs walletLockHash cells
    let totalCapacity := (inputs.map LiveCell.capacity).sum
    if inputs.length = 0 then
      .errNoWithdrawableCells
    else if totalCapacity ≤ WithdrawFee + MinCellCapacity then
      .errInsufficientBalance totalCapacity
    else
      .submitted [(totalCapacity - WithdrawFee, toLockHash)]

/-- Whether a WithdrawAll outcome is the insufficient-balance error. -/
def isInsufficientBalance : WithdrawResult → Bool
  | .errInsufficientBalance _ => true
  | _ => false

/-- Whether a WithdrawAll outcome submitted a transaction. -/
def isSubmitted : WithdrawResult → Bool
  | .submitted _ => true
  | _ => false

/-! ### Session layer (server: createSessionFromWallet, NewServer,
processMicropayments, handleEndSession, handleExtendSession) -/

/-- Nanoseconds in one minute (time.Minute). -/
def nanosPerMinute : Int := 60000000000

/-- ratePerMinShannons, as computed by NewServer and updateRatePerMin:
(ratePerHour * 100000000) / 60 with Go int64 division, i.e. truncation
toward zero. -/
def ratePerMinShannons (ratePerHour : Int) : Int :=
  (ratePerHour * 100000000).tdiv 60

/-- Session duration in minutes, as computed by createSessionFromWallet:
usableShannons / ratePerMinShannons with Go int64 division (truncation
toward zero). -/
def sessionMinutes (usableCKB ratePerMin : Int) : Int :=
  (usableCKB * 100000000).tdiv ratePerMin

/-- The usable balance of createSessionFromWallet: the funded balance minus
the reserved channel-setup amount, clamped at zero. -/
def usableCKBOf (balanceCKB reservedCKB : Int) : Int :=
  let u := balanceCKB - reservedCKB
  if u < 0 then 0 else u

/-- The hourly rate used by createSessionFromWallet: the stored value when
it is available and positive, otherwise the default 500. -/
def effectiveRatePerHour : Option Int → Int
  | none => 500
  | some v => if v ≤ 0 then 500 else v

/-- The persisted session row written by createSessionFromWallet (the
fields the claims are about). -/
structure DBSession where
  fundingCKB : Int
  balanceCKB : Int
  spentCKB : Int
  createdAt : Int
  expiresAt : Int
deriving DecidableEq, Repr

/-- createSessionFromWallet: clamp the usable balance, derive the per-minute
rate from the stored hourly price (dbRate is none when the lookup fails),
compute the session duration in whole minutes, and build the session row. -/
def createSessionFromWallet (balanceCKB reservedCKB : Int) (dbRate : Option Int)
    (now : Int) : DBSession :=
  let usableCKB := usableCKBOf balanceCKB reservedCKB
  let ratePerMin := ratePerMinShannons (effectiveRatePerHour dbRate)
  let mins := sessionMinutes usableCKB ratePerMin
  { fundingCKB := balanceCKB
    balanceCKB := usableCKB
    spentCKB := 0
    createdAt := now
    expiresAt := now + mins * nanosPerMinute }

/-- The in-memory GuestSession record (the fields the claims are about;
amounts in shannons as big.Int, modelled by Int). -/
structure GuestSession where
  id : Nat
  fundingAmount : Int
  totalPaid : Int
  createdAt : Int
  expiresAt : Int
deriving DecidableEq, Repr

/-- Everything one tick of processMicropayments produces: the surviving
active set, the session ids for which a background settlement task was
scheduled, the session ids for which SendPayment was invoked, and the
UpdateSessionBalance write-through calls (id, balanceCKB, spentCKB). -/
structure TickResult where
  sessions : List GuestSession
  settlements : List Nat
  payAttempts : List Nat
  dbWrites : List (Nat × Int × Int)
deriving DecidableEq, Repr

/-- processMicropayments: for each active session, settle and drop it when
expired (now past expiresAt) or when the remaining funds are below the
rate; otherwise invoke SendPayment, and on success add the rate to
totalPaid and write the derived CKB balances through to the store; on
failure leave the session untouched.  The Go code iterates a map in
unspecified order; the model processes the list elementwise, which is
faithful up to that order. -/
def processMicropayments (now ratePerMin : Int) (payOk : Nat → Bool) :
    List GuestSession → TickResult
  | [] => ⟨[], [], [], []⟩
  | s :: rest =>
    let r := processMicropayments now ratePerMin payOk rest
    if s.expiresAt < now then
      { r with settlements := s.id :: r.settlements }
    else if s.fundingAmount - s.totalPaid < ratePerMin then
      { r with settlements := s.id :: r.settlements }
    else if payOk s.id then
      let paid := s.totalPaid + ratePerMin
      { sessions := { s with totalPaid := paid } :: r.sessions
        settlements := r.settlements
        payAttempts := s.id :: r.payAttempts
        dbWrites :=
          (s.id, (s.fundingAmount - paid).tdiv shannonsPerCKB,
            paid.tdiv shannonsPerCKB) :: r.dbWrites }
    else
      { r with
        sessions := s :: r.sessions
        payAttempts := s.id :: r.payAttempts }

/-- Outcome code of handleEndSession. -/
inductive EndStatus where
  | notFound : EndStatus
  | settling : EndStatus
deriving DecidableEq, Repr

/-- Result of handleEndSession: the remaining active set, the session ids
for which background settlement was started, and the HTTP outcome. -/
structure EndResult where
  sessions : List GuestSession
  settlements : List Nat
  status : EndStatus
deriving DecidableEq, Repr

/-- handleEndSession: under the registry lock, look the session up; when
absent answer not-found and do nothing; otherwise remove it from the map
and start exactly one background settlement for it. -/
def handleEndSession (sessions : List GuestSession) (sessionID : Nat) : EndResult :=
  match sessions.find? (fun s => s.id == sessionID) with
  | none => ⟨sessions, [], .notFound⟩
  | some s => ⟨sessions.filter (fun t => !(t.id == sessionID)), [s.id], .settling⟩

/-- Outcome code of handleExtendSession. -/
inductive ExtendStatus where
  | badRequest : ExtendStatus
  | notFound : ExtendStatus
  | payFailed : ExtendStatus
  | ok : ExtendStatus
deriving DecidableEq, Repr

/-- Result of handleExtendSession. -/
structure ExtendResult where
  sessions : List GuestSession
  status : ExtendStatus
deriving DecidableEq, Repr

/-- handleExtendSession: reject a non-positive amount; answer not-found for
an unknown session; otherwise send the extension payment over the channel
and, on success, add it to totalPaid and push expiresAt out by the bought
minutes (big.Int division of the amount by the rate, which is Euclidean
division).  fundingAmount is not changed. -/
def handleExtendSession (ratePerMin : Int) (sessions : List GuestSession)
    (sessionID : Nat) (amountCKB : Int) (payOk : Bool) : ExtendResult :=
  if amountCKB ≤ 0 then
    ⟨sessions, .badRequest⟩
  else
    match sessions.find? (fun s => s.id == sessionID) with
    | none => ⟨sessions, .notFound⟩
    | some s =>
      if payOk then
        let amountShannons := amountCKB * shannonsPerCKB
        let additionalMins := amountShannons.ediv ratePerMin
        let s2 := { s with
          totalPaid := s.totalPaid + amountShannons
          expiresAt := s.expiresAt + additionalMins * nanosPerMinute }
        ⟨sessions.map (fun t => if t.id == sessionID then s2 else t), .ok⟩
      else
        ⟨sessions, .payFailed⟩

/-- One scheduler tick's environment: the clock instant, the per-minute
rate, and which sessions' SendPayment calls succeed. -/
structure TickEnv where
  now : Int
  ratePerMin : Int
  payOk : Nat → Bool

/-- The active set after a sequence of scheduler ticks. -/
def runTicks : List TickEnv → List GuestSession → List GuestSession
  | [], sessions => sessions
  | e :: rest, sessions =>
    runTicks rest (processMicropayments e.now e.ratePerMin e.payOk sessions).sessions

/-- The invariant of claim C1 for one session. -/
def PaidWithinFunding (s : GuestSession) : Prop :=
  s.totalPaid ≤ s.fundingAmount

instance (s : GuestSession) : Decidable (PaidWithinFunding s) := by
  unfold PaidWithinFunding; infer_instance

/-! ### Helper lemmas -/

/-- Int.tdiv restricted to naturals is Nat floor division. -/
lemma tdiv_natCast (a b : Nat) : Int.tdiv (a : Int) (b : Int) = ((a / b : Nat) : Int) := rfl

/-- One selection step of SplitCell only ever holds a cell of capacity at
least minSplitCapacity. -/
lemma pickStep_bound (acc : Option Nat) (x b : Nat)
    (hacc : ∀ c, acc = some c → minSplitCapacity ≤ c)
    (hb : pickStep acc x = some b) : minSplitCapacity ≤ b := by
  unfold pickStep at hb
  by_cases hx : minSplitCapacity ≤ x
  · rw [if_pos hx] at hb
    cases acc with
    | none => cases hb; exact hx
    | some a =>
      have hb2 : (if a < x then some x else some a) = some b := hb
      by_cases hax : a < x
      · rw [if_pos hax] at hb2; cases hb2; exact hx
      · rw [if_neg hax] at hb2; cases hb2; exact hacc b rfl
  · rw [if_neg hx] at hb
    exact hacc b hb

/-- Any cell returned by the selection loop of SplitCell has capacity at
least minSplitCapacity. -/
lemma pickStep_foldl_bound (cells : List Nat) (acc : Option Nat)
    (hacc : ∀ b, acc = some b → minSplitCapacity ≤ b) :
    ∀ d, cells.foldl pickStep acc = some d → minSplitCapacity ≤ d := by
  induction cells generalizing acc with
  | nil => simpa using hacc
  | cons x xs ih =>
    intro d hd
    rw [List.foldl_cons] at hd
    exact ih (pickStep acc x) (fun c hc => pickStep_bound acc x c hacc hc) d hd

lemma pickSplittable_bound (cells : List Nat) (d : Nat)
    (h : pickSplittable cells = some d) : minSplitCapacity ≤ d :=
  pickStep_foldl_bound cells none (by simp) d h

/-- Sessions, scheduled settlements, payment attempts and store writes of a
tick only ever mention session ids present in the input active set. -/
lemma processMicropayments_not_mentioned (now ratePerMin : Int) (payOk : Nat → Bool)
    (ss : List GuestSession) (i : Nat) (h : i ∉ ss.map GuestSession.id) :
    i ∉ (processMicropayments now ratePerMin payOk ss).sessions.map GuestSession.id ∧
    i ∉ (processMicropayments now ratePerMin payOk ss).settlements ∧
    i ∉ (processMicropayments now ratePerMin payOk ss).payAttempts ∧
    ∀ w ∈ (processMicropayments now ratePerMin payOk ss).dbWrites, w.1 ≠ i := by
  induction ss with
  | nil => simp [processMicropayments]
  | cons s rest ih =>
    simp only [List.map_cons, List.mem_cons, not_or] at h
    obtain ⟨hhead, htail⟩ := h
    obtain ⟨ih1, ih2, ih3, ih4⟩ := ih htail
    simp only [processMicropayments]
    split_ifs with h1 h2 h3
    · exact ⟨ih1, by simp [hhead, ih2], ih3, ih4⟩
    · exact ⟨ih1, by simp [hhead, ih2], ih3, ih4⟩
    · refine ⟨by simp [hhead, ih1], ih2, by simp [hhead, ih3], ?_⟩
      intro w hw
      rcases List.mem_cons.mp hw with hweq | hwmem
      · subst hweq; exact fun hc => hhead hc.symm
      · exact ih4 w hwmem
    · exact ⟨by simp [hhead, ih1], ih2, by simp [hhead, ih3], ih4⟩

/-- When the ids in the active set are distinct (they are keys of a Go
map), every session a tick schedules settlement for has left the set. -/
lemma processMicropayments_settled_removed (now ratePerMin : Int) (payOk : Nat → Bool)
    (ss : List GuestSession) (hnd : (ss.map GuestSession.id).Nodup) :
    ∀ i ∈ (processMicropayments now ratePerMin payOk ss).settlements,
      i ∉ (processMicropayments now ratePerMin payOk ss).sessions.map GuestSession.id := by
  induction ss with
  | nil => simp [processMicropayments]
  | cons s rest ih =>
    simp only [List.map_cons, List.nodup_cons] at hnd
    obtain ⟨hnotin, hndrest⟩ := hnd
    have ihr := ih hndrest
    obtain ⟨n1, n2, n3, n4⟩ :=
      processMicropayments_not_mentioned now ratePerMin payOk rest s.id hnotin
    simp only [processMicropayments]
    split_ifs with h1 h2 h3
    · intro i hi
      rcases List.mem_cons.mp hi with hieq | himem
      · subst hieq; exact n1
      · exact ihr i himem
    · intro i hi
      rcases List.mem_cons.mp hi with hieq | himem
      · subst hieq; exact n1
      · exact ihr i himem
    · intro i hi
      have hins : i ≠ s.id := fun hc => n2 (hc ▸ hi)
      simp only [List.map_cons, List.mem_cons, not_or]
      exact ⟨hins, ihr i hi⟩
    · intro i hi
      have hins : i ≠ s.id := fun hc => n2 (hc ▸ hi)
      simp only [List.map_cons, List.mem_cons, not_or]
      exact ⟨hins, ihr i hi⟩

/-- An end request for an id absent from the registry answers not-found and
starts no settlement, leaving the registry as it is. -/
lemma handleEndSession_absent (ss : List GuestSession) (sid : Nat)
    (h : sid ∉ ss.map GuestSession.id) :
    handleEndSession ss sid = ⟨ss, [], .notFound⟩ := by
  unfold handleEndSession
  rw [List.find?_eq_none.mpr]
  intro t ht
  simp only [beq_iff_eq]
  exact fun hc => h (hc ▸ List.mem_map_of_mem GuestSession.id ht)

/-- A single tick keeps every surviving session within its funding,
provided each session was within its funding before the tick. -/
lemma tick_preserves_paidWithinFunding (now ratePerMin : Int) (payOk : Nat → Bool)
    (ss : List GuestSession) (h : ∀ s ∈ ss, PaidWithinFunding s) :
    ∀ s ∈ (processMicropayments now ratePerMin payOk ss).sessions, PaidWithinFunding s := by
  induction ss with
  | nil => simp [processMicropayments]
  | cons t rest ih =>
    have hrest := ih fun s hs => h s (List.mem_cons_of_mem _ hs)
    have hhead := h t (List.mem_cons_self _ _)
    simp only [processMicropayments]
    split_ifs with h1 h2 h3
    · exact hrest
    · exact hrest
    · intro s hs
      rcases List.mem_cons.mp hs with hseq | hsmem
      · subst hseq
        simp only [PaidWithinFunding] at *
        omega
      · exact hrest s hsmem
    · intro s hs
      rcases List.mem_cons.mp hs with hseq | hsmem
      · subst hseq; exact hhead
      · exact hrest s hsmem

/-! ### Claim theorems -/

/-- Claim C4: the per-tick debit rate equals the floor of
hourlyPrice * 100000000 / 60 base units per minute (Go int64 division,
truncation toward zero, which on non-negative prices is the floor), and at
the rate derived from 500 CKB/hour (833333333 shannons per minute) a
funding of 500 CKB buys 60 minutes, 250 CKB buys 30, 1000 CKB buys 120 and
85 CKB buys 10. -/
theorem ratePerTick_formula_and_durations :
    (∀ h : Nat, ratePerMinShannons (h : Int) = ((h * 100000000 / 60 : Nat) : Int)) ∧
    ratePerMinShannons 500 = 833333333 ∧
    sessionMinutes 500 (ratePerMinShannons 500) = 60 ∧
    sessionMinutes 250 (ratePerMinShannons 500) = 30 ∧
    sessionMinutes 1000 (ratePerMinShannons 500) = 120 ∧
    sessionMinutes 85 (ratePerMinShannons 500) = 10 := by
  refine ⟨fun h => ?_, by decide, by decide, by decide, by decide, by decide⟩
  unfold ratePerMinShannons
  rw [show ((h : Int) * 100000000) = ((h * 100000000 : Nat) : Int) by push_cast; ring]
  exact tdiv_natCast _ _

/-- Claim C5: splitting a wallet that holds one bare cell of capacity C at
least 2 * CellMinCapacity + SplitFee via EnsureMinimumCells with target 2
submits exactly one transaction and yields exactly two bare cells whose
capacities sum to C - SplitFee, each at least CellMinCapacity. -/
theorem ensureMinimumCells_two_split (C : Nat)
    (h : 2 * CellMinCapacity + SplitFee ≤ C) :
    ∃ c1 c2, EnsureMinimumCells 2 [C] = some ([c1, c2], 1) ∧
      c1 + c2 = C - SplitFee ∧ CellMinCapacity ≤ c1 ∧ CellMinCapacity ≤ c2 := by
  have h' : 2 * 6100000000 + 100000 ≤ C := by
    simpa [CellMinCapacity, SplitFee] using h
  have hmin : minSplitCapacity ≤ C := by
    unfold minSplitCapacity; exact h
  have hpick : pickSplittable [C] = some C := by
    unfold pickSplittable
    simp [pickStep, hmin]
  have hb : ¬ (C - SplitFee) / 2 < CellMinCapacity := by
    simp only [SplitFee, CellMinCapacity]
    omega
  have hsc : SplitCell [C] = some [(C - SplitFee) / 2, (C - SplitFee) - (C - SplitFee) / 2] := by
    unfold SplitCell
    rw [hpick]
    simp only [splitCapacities]
    rw [if_neg hb]
    simp
  refine ⟨(C - SplitFee) / 2, (C - SplitFee) - (C - SplitFee) / 2, ?_, ?_, ?_, ?_⟩
  · unfold EnsureMinimumCells
    rw [if_neg (by simp), if_neg (by simp)]
    unfold ensureLoop
    rw [if_pos (by simp)]
    rw [hsc]
    unfold ensureLoop
    rw [if_neg (by simp)]
  · simp only [SplitFee]
    omega
  · simp only [SplitFee, CellMinCapacity]
    omega
  · simp only [SplitFee, CellMinCapacity]
    omega

/-- Witness for claim C5 at the concrete capacity 13000000000 shannons
(130 CKB). -/
theorem ensureMinimumCells_two_split_witness :
    2 * CellMinCapacity + SplitFee ≤ 13000000000 ∧
    ∃ c1 c2, EnsureMinimumCells 2 [13000000000] = some ([c1, c2], 1) ∧
      c1 + c2 = 13000000000 - SplitFee ∧ CellMinCapacity ≤ c1 ∧ CellMinCapacity ≤ c2 :=
  ⟨by decide, ensureMinimumCells_two_split 13000000000 (by decide)⟩

/-- Claim C6: EnsureMinimumCells is idempotent: when the current bare-cell
count already reaches the requested minimum it succeeds immediately,
returning the wallet unchanged with zero submitted transactions. -/
theorem ensureMinimumCells_idempotent (minCells : Nat) (cells : List Nat)
    (h : minCells ≤ cells.length) :
    EnsureMinimumCells minCells cells = some (cells, 0) := by
  unfold EnsureMinimumCells
  rw [if_pos h]

/-- Witness for claim C6: a wallet with three bare cells and a requested
minimum of two. -/
theorem ensureMinimumCells_idempotent_witness :
    2 ≤ ([6100000000, 7000000000, 8000000000] : List Nat).length ∧
    EnsureMinimumCells 2 [6100000000, 7000000000, 8000000000] =
      some ([6100000000, 7000000000, 8000000000], 0) :=
  ⟨by decide, ensureMinimumCells_idempotent 2 [6100000000, 7000000000, 8000000000] (by decide)⟩

/-- Claim C9: every cell SplitCell selects has capacity at least
2 * CellMinCapacity + SplitFee, and under that bound the even half of
(capacity - SplitFee) already reaches CellMinCapacity, so the
minimum-raising branch of SplitCell is unreachable: the computed split is
the plain even split and both outputs respect the floor. -/
theorem splitCapacities_raise_branch_unreachable (c : Nat)
    (h : 2 * CellMinCapacity + SplitFee ≤ c) :
    (∀ cells d, pickSplittable cells = some d → 2 * CellMinCapacity + SplitFee ≤ d) ∧
    CellMinCapacity ≤ (c - SplitFee) / 2 ∧
    splitCapacities c = splitCapacitiesEven c ∧
    CellMinCapacity ≤ (splitCapacities c).1 ∧
    CellMinCapacity ≤ (splitCapacities c).2 := by
  have h' : 2 * 6100000000 + 100000 ≤ c := by
    simpa [CellMinCapacity, SplitFee] using h
  have hhalf : CellMinCapacity ≤ (c - SplitFee) / 2 := by
    simp only [SplitFee, CellMinCapacity]
    omega
  have heven : splitCapacities c = splitCapacitiesEven c := by
    unfold splitCapacities splitCapacitiesEven
    rw [if_neg (by omega)]
  refine ⟨fun cells d hd => pickSplittable_bound cells d hd, hhalf, heven, ?_, ?_⟩
  · rw [heven]
    unfold splitCapacitiesEven
    exact hhalf
  · rw [heven]
    unfold splitCapacitiesEven
    simp only [SplitFee, CellMinCapacity]
    omega

/-- Witness for claim C9 at the minimal splittable capacity
12200100000 shannons. -/
theorem splitCapacities_raise_branch_unreachable_witness :
    2 * CellMinCapacity + SplitFee ≤ 12200100000 ∧
    (CellMinCapacity ≤ (12200100000 - SplitFee) / 2 ∧
      splitCapacities 12200100000 = splitCapacitiesEven 12200100000 ∧
      CellMinCapacity ≤ (splitCapacities 12200100000).1 ∧
      CellMinCapacity ≤ (splitCapacities 12200100000).2) :=
  ⟨by decide,
    (splitCapacities_raise_branch_unreachable 12200100000 (by decide)).2.1,
    (splitCapacities_raise_branch_unreachable 12200100000 (by decide)).2.2.1,
    (splitCapacities_raise_branch_unreachable 12200100000 (by decide)).2.2.2.1,
    (splitCapacities_raise_branch_unreachable 12200100000 (by decide)).2.2.2.2⟩

/-- Counterexample to claim C7 as stated: a wallet with no cells has a
bare-capacity sum of 0, which is at most WithdrawFee + MinCellCapacity,
yet WithdrawAll fails with the no-cells error rather than the
insufficient-balance error (no transaction is submitted either way). -/
theorem withdrawAll_empty_wallet_not_insufficient :
    bareCapacitySum 1 [] ≤ WithdrawFee + MinCellCapacity ∧
    WithdrawAll 1 2 [] = .errNoCells ∧
    isInsufficientBalance (WithdrawAll 1 2 []) = false ∧
    isSubmitted (WithdrawAll 1 2 []) = false := by
  decide

/-- Claim C7 (amended): whenever the bare-capacity sum is at most
WithdrawFee + MinCellCapacity no transaction is submitted; if furthermore
at least one bare cell with the wallet's lock exists, the failure is the
insufficient-balance error carrying the sum; and when the sum exceeds the
threshold a single-output transaction of capacity sum - WithdrawFee locked
to the destination is submitted. -/
theorem withdrawAll_insufficient_and_success (walletLockHash toLockHash : Nat)
    (cells : List LiveCell) :
    (bareCapacitySum walletLockHash cells ≤ WithdrawFee + MinCellCapacity →
      isSubmitted (WithdrawAll walletLockHash toLockHash cells) = false) ∧
    (withdrawInputs walletLockHash cells ≠ [] →
      bareCapacitySum walletLockHash cells ≤ WithdrawFee + MinCellCapacity →
      WithdrawAll walletLockHash toLockHash cells =
        .errInsufficientBalance (bareCapacitySum walletLockHash cells)) ∧
    (WithdrawFee + MinCellCapacity < bareCapacitySum walletLockHash cells →
      WithdrawAll walletLockHash toLockHash cells =
        .submitted [(bareCapacitySum walletLockHash cells - WithdrawFee, toLockHash)]) := by
  simp only [WithdrawAll, bareCapacitySum]
  split_ifs with h1 h2 h3
  · have hcells : cells = [] := List.length_eq_zero.mp h1
    subst hcells
    refine ⟨fun _ => rfl, fun hne _ => ?_, fun hlt => ?_⟩
    · exact absurd (by simp [withdrawInputs]) hne
    · simp [withdrawInputs] at hlt
  · have hinp : withdrawInputs walletLockHash cells = [] := List.length_eq_zero.mp h2
    refine ⟨fun _ => rfl, fun hne _ => absurd hinp hne, fun hlt => ?_⟩
    rw [hinp] at hlt
    simp at hlt
  · exact ⟨fun _ => rfl, fun _ _ => rfl, fun hlt => absurd h3 (by omega)⟩
  · exact ⟨fun hle => absurd hle h3, fun _ hle => absurd hle h3, fun _ => rfl⟩

/-- Witness for the amended claim C7: a 50 CKB bare cell is below the
threshold and draws the insufficient-balance error; a 70 CKB bare cell is
above it and produces the single-output sweep transaction. -/
theorem withdrawAll_insufficient_and_success_witness :
    (withdrawInputs 1 [⟨5000000000, false, 1⟩] ≠ [] ∧
      bareCapacitySum 1 [⟨5000000000, false, 1⟩] ≤ WithdrawFee + MinCellCapacity ∧
      WithdrawAll 1 2 [⟨5000000000, false, 1⟩] = .errInsufficientBalance 5000000000) ∧
    (WithdrawFee + MinCellCapacity < bareCapacitySum 1 [⟨7000000000, false, 1⟩] ∧
      WithdrawAll 1 2 [⟨7000000000, false, 1⟩] = .submitted [(6999900000, 2)]) := by
  constructor
  · refine ⟨by decide, by decide, ?_⟩
    have h := (withdrawAll_insufficient_and_success 1 2 [⟨5000000000, false, 1⟩]).2.1
      (by decide) (by decide)
    rw [show bareCapacitySum 1 [⟨5000000000, false, 1⟩] = 5000000000 by decide] at h
    exact h
  · refine ⟨by decide, ?_⟩
    have h := (withdrawAll_insufficient_and_success 1 2 [⟨7000000000, false, 1⟩]).2.2
      (by decide)
    rw [show bareCapacitySum 1 [⟨7000000000, false, 1⟩] = 7000000000 by decide] at h
    exact h

/-- Claim C10: createSessionFromWallet clamps the usable balance at zero:
the stored balance is never negative, and when the funded balance is
strictly below the reserved channel-setup amount the session is created
with usable balance 0 and zero duration, its expiry equal to its creation
instant. -/
theorem createSessionFromWallet_clamps (balanceCKB reservedCKB : Int)
    (dbRate : Option Int) (now : Int) :
    0 ≤ (createSessionFromWallet balanceCKB reservedCKB dbRate now).balanceCKB ∧
    (balanceCKB < reservedCKB →
      (createSessionFromWallet balanceCKB reservedCKB dbRate now).balanceCKB = 0 ∧
      (createSessionFromWallet balanceCKB reservedCKB dbRate now).expiresAt =
        (createSessionFromWallet balanceCKB reservedCKB dbRate now).createdAt) := by
  constructor
  · simp only [createSessionFromWallet, usableCKBOf]
    split_ifs with h
    · exact le_refl 0
    · omega
  · intro hlt
    have hu : usableCKBOf balanceCKB reservedCKB = 0 := by
      simp only [usableCKBOf]
      rw [if_pos (by omega)]
    constructor
    · simp only [createSessionFromWallet, hu]
    · simp only [createSessionFromWallet, hu, sessionMinutes]
      rw [show ((0 : Int) * 100000000) = 0 by ring, Int.zero_tdiv]
      ring

/-- Witness for claim C10: a wallet funded with 5 CKB against a reserved
channel-setup amount of 10 CKB. -/
theorem createSessionFromWallet_clamps_witness :
    0 ≤ (createSessionFromWallet 5 10 none 0).balanceCKB ∧
    ((5 : Int) < 10 ∧
      (createSessionFromWallet 5 10 none 0).balanceCKB = 0 ∧
      (createSessionFromWallet 5 10 none 0).expiresAt =
        (createSessionFromWallet 5 10 none 0).createdAt) :=
  ⟨(createSessionFromWallet_clamps 5 10 none 0).1,
    by decide,
    ((createSessionFromWallet_clamps 5 10 none 0).2 (by decide)).1,
    ((createSessionFromWallet_clamps 5 10 none 0).2 (by decide)).2⟩

/-- Counterexample to claim C1 as stated: a session holding
totalPaid ≤ fundingAmount (500 CKB funded, nothing paid) violates the
invariant right after one successful extend operation of 600 CKB, because
handleExtendSession adds the extension payment to totalPaid without
increasing fundingAmount. -/
theorem extend_breaks_totalPaid_le_funding :
    (∀ s ∈ [GuestSession.mk 1 50000000000 0 0 3600000000000], PaidWithinFunding s) ∧
    (handleExtendSession 833333333
      [GuestSession.mk 1 50000000000 0 0 3600000000000] 1 600 true).status = .ok ∧
    ∃ s ∈ (handleExtendSession 833333333
      [GuestSession.mk 1 50000000000 0 0 3600000000000] 1 600 true).sessions,
      ¬ PaidWithinFunding s := by
  decide

/-- Claim C1 (amended): totalPaid ≤ fundingAmount is an invariant of the
micropayment scheduler: starting from an active set in which every session
satisfies it, it holds for every session at every observation point of any
sequence of scheduler ticks (the pay step only fires when the remaining
funds cover the rate).  Extend operations and the channel-open catch-up
payment are excluded: they add to totalPaid without changing
fundingAmount and can violate the bound. -/
theorem runTicks_preserves_totalPaid_le_funding (envs : List TickEnv)
    (ss : List GuestSession) (h : ∀ s ∈ ss, PaidWithinFunding s) :
    ∀ s ∈ runTicks envs ss, PaidWithinFunding s := by
  induction envs generalizing ss with
  | nil => simpa [runTicks] using h
  | cons e rest ih =>
    simp only [runTicks]
    exact ih _ (tick_preserves_paidWithinFunding e.now e.ratePerMin e.payOk ss h)

/-- Witness for the amended claim C1: one funded session pushed through a
tick that debits it. -/
theorem runTicks_preserves_totalPaid_le_funding_witness :
    (∀ s ∈ [GuestSession.mk 1 50000000000 0 0 3600000000000], PaidWithinFunding s) ∧
    ∀ s ∈ runTicks [TickEnv.mk 60000000000 833333333 (fun _ => true)]
      [GuestSession.mk 1 50000000000 0 0 3600000000000],
      PaidWithinFunding s :=
  ⟨by decide, runTicks_preserves_totalPaid_le_funding _ _ (by decide)⟩

/-- Claim C2: an explicit end request removes the session from the active
registry and starts exactly one background settlement; a second end request
for the same id finds nothing, answers not-found and starts no settlement,
so two end calls yield exactly one settlement invocation.  An end request
for any id absent from the registry is a settlement-free not-found answer,
and every session a scheduler tick schedules settlement for has been
removed from the active set it returns. -/
theorem endSession_settles_exactly_once (ss : List GuestSession) (sid : Nat)
    (hnd : (ss.map GuestSession.id).Nodup)
    (hmem : sid ∈ ss.map GuestSession.id) :
    (handleEndSession ss sid).status = .settling ∧
    (handleEndSession ss sid).settlements = [sid] ∧
    sid ∉ (handleEndSession ss sid).sessions.map GuestSession.id ∧
    (handleEndSession (handleEndSession ss sid).sessions sid).status = .notFound ∧
    (handleEndSession (handleEndSession ss sid).sessions sid).settlements = [] ∧
    ((handleEndSession ss sid).settlements ++
      (handleEndSession (handleEndSession ss sid).sessions sid).settlements).count sid = 1 ∧
    (∀ ss2 : List GuestSession, sid ∉ ss2.map GuestSession.id →
      (handleEndSession ss2 sid).status = .notFound ∧
      (handleEndSession ss2 sid).settlements = []) ∧
    (∀ now ratePerMin payOk,
      ∀ i ∈ (processMicropayments now ratePerMin payOk ss).settlements,
        i ∉ (processMicropayments now ratePerMin payOk ss).sessions.map GuestSession.id) := by
  obtain ⟨s0, hs0mem, hs0id⟩ := List.mem_map.mp hmem
  have hfind : ∃ t, ss.find? (fun u => u.id == sid) = some t ∧ t.id = sid := by
    cases hf : ss.find? (fun u => u.id == sid) with
    | none =>
      exfalso
      have := List.find?_eq_none.mp hf s0 hs0mem
      simp [hs0id] at this
    | some t =>
      exact ⟨t, rfl, by simpa using List.find?_some hf⟩
  obtain ⟨t, hft, htid⟩ := hfind
  have h1 : handleEndSession ss sid =
      ⟨ss.filter (fun u => !(u.id == sid)), [t.id], .settling⟩ := by
    unfold handleEndSession
    rw [hft]
  rw [htid] at h1
  have hnomem : sid ∉ (ss.filter (fun u => !(u.id == sid))).map GuestSession.id := by
    intro hc
    obtain ⟨u, humem, huid⟩ := List.mem_map.mp hc
    have := List.of_mem_filter humem
    simp [huid] at this
  have h2 : handleEndSession (ss.filter (fun u => !(u.id == sid))) sid =
      ⟨ss.filter (fun u => !(u.id == sid)), [], .notFound⟩ :=
    handleEndSession_absent _ _ hnomem
  rw [h1]
  refine ⟨rfl, rfl, hnomem, ?_, ?_, ?_, ?_, ?_⟩
  · simp only [h2]
  · simp only [h2]
  · simp only [h2]
    simp
  · intro ss2 hss2
    rw [handleEndSession_absent ss2 sid hss2]
    exact ⟨rfl, rfl⟩
  · intro now ratePerMin payOk
    exact processMicropayments_settled_removed now ratePerMin payOk ss hnd

/-- Witness for claim C2: a registry of two sessions, ending session 1
twice. -/
theorem endSession_settles_exactly_once_witness :
    ([GuestSession.mk 1 100 0 0 9, GuestSession.mk 2 100 0 0 9].map GuestSession.id).Nodup ∧
    1 ∈ [GuestSession.mk 1 100 0 0 9, GuestSession.mk 2 100 0 0 9].map GuestSession.id ∧
    ((handleEndSession [GuestSession.mk 1 100 0 0 9, GuestSession.mk 2 100 0 0 9] 1).status
        = .settling ∧
      (handleEndSession [GuestSession.mk 1 100 0 0 9, GuestSession.mk 2 100 0 0 9] 1).settlements
        = [1]) :=
  ⟨by decide, by decide,
    (endSession_settles_exactly_once
      [GuestSession.mk 1 100 0 0 9, GuestSession.mk 2 100 0 0 9] 1
      (by decide) (by decide)).1,
    (endSession_settles_exactly_once
      [GuestSession.mk 1 100 0 0 9, GuestSession.mk 2 100 0 0 9] 1
      (by decide) (by decide)).2.1⟩

/-- Claim C3: on a scheduler tick, a session whose remaining funds are
strictly below the rate and which is not past its expiry leaves the active
set, gets exactly one scheduled settlement task, and has no payment
invoked for it on that tick. -/
theorem tick_insufficient_settles_once (now ratePerMin : Int) (payOk : Nat → Bool)
    (ss : List GuestSession) (s : GuestSession)
    (hnd : (ss.map GuestSession.id).Nodup) (hmem : s ∈ ss)
    (hexp : ¬ s.expiresAt < now)
    (hins : s.fundingAmount - s.totalPaid < ratePerMin) :
    s.id ∉ (processMicropayments now ratePerMin payOk ss).sessions.map GuestSession.id ∧
    (processMicropayments now ratePerMin payOk ss).settlements.count s.id = 1 ∧
    s.id ∉ (processMicropayments now ratePerMin payOk ss).payAttempts := by
  induction ss with
  | nil => cases hmem
  | cons t rest ih =>
    simp only [List.map_cons, List.nodup_cons] at hnd
    obtain ⟨hnotin, hndrest⟩ := hnd
    rcases List.mem_cons.mp hmem with heq | hmemrest
    · subst heq
      obtain ⟨n1, n2, n3, _⟩ :=
        processMicropayments_not_mentioned now ratePerMin payOk rest s.id hnotin
      simp only [processMicropayments]
      rw [if_neg hexp, if_pos hins]
      refine ⟨n1, ?_, n3⟩
      simp [List.count_cons_self, List.count_eq_zero.mpr n2]
    · have htid : t.id ≠ s.id := by
        intro hc
        exact hnotin (hc ▸ List.mem_map_of_mem GuestSession.id hmemrest)
      obtain ⟨i1, i2, i3⟩ := ih hndrest hmemrest
      simp only [processMicropayments]
      split_ifs with h1 h2 h3
      · exact ⟨i1, by simpa [List.count_cons, Ne.symm htid] using i2, i3⟩
      · exact ⟨i1, by simpa [List.count_cons, Ne.symm htid] using i2, i3⟩
      · refine ⟨?_, i2, by simp [Ne.symm htid, i3]⟩
        simp only [List.map_cons, List.mem_cons, not_or]
        exact ⟨fun hc => htid hc.symm, i1⟩
      · refine ⟨?_, i2, by simp [Ne.symm htid, i3]⟩
        simp only [List.map_cons, List.mem_cons, not_or]
        exact ⟨fun hc => htid hc.symm, i1⟩

/-- Witness for claim C3: a tick at rate 200 over one unexpired session
with only 100 remaining. -/
theorem tick_insufficient_settles_once_witness :
    ([GuestSession.mk 1 1000 900 0 100].map GuestSession.id).Nodup ∧
    GuestSession.mk 1 1000 900 0 100 ∈ [GuestSession.mk 1 1000 900 0 100] ∧
    ¬ (100 : Int) < 50 ∧ ((1000 : Int) - 900 < 200) ∧
    (1 ∉ (processMicropayments 50 200 (fun _ => true)
        [GuestSession.mk 1 1000 900 0 100]).sessions.map GuestSession.id ∧
      (processMicropayments 50 200 (fun _ => true)
        [GuestSession.mk 1 1000 900 0 100]).settlements.count 1 = 1 ∧
      1 ∉ (processMicropayments 50 200 (fun _ => true)
        [GuestSession.mk 1 1000 900 0 100]).payAttempts) :=
  ⟨by decide, by decide, by decide, by decide,
    tick_insufficient_settles_once 50 200 (fun _ => true)
      [GuestSession.mk 1 1000 900 0 100] (GuestSession.mk 1 1000 900 0 100)
      (by decide) (by decide) (by decide) (by decide)⟩

/-- Claim C8: when the pay operation fails for an unexpired, sufficiently
funded session on a tick, that session survives the tick with every field
unchanged (it is the unique session with its id in the resulting active
set), no store write is performed for it, and no settlement is scheduled
for it; being still active, it is simply retried on the next tick. -/
theorem tick_payment_failure_frame (now ratePerMin : Int) (payOk : Nat → Bool)
    (ss : List GuestSession) (s : GuestSession)
    (hnd : (ss.map GuestSession.id).Nodup) (hmem : s ∈ ss)
    (hexp : ¬ s.expiresAt < now)
    (hsuf : ¬ s.fundingAmount - s.totalPaid < ratePerMin)
    (hfail : payOk s.id = false) :
    s ∈ (processMicropayments now ratePerMin payOk ss).sessions ∧
    (∀ t ∈ (processMicropayments now ratePerMin payOk ss).sessions, t.id = s.id → t = s) ∧
    (∀ w ∈ (processMicropayments now ratePerMin payOk ss).dbWrites, w.1 ≠ s.id) ∧
    s.id ∉ (processMicropayments now ratePerMin payOk ss).settlements := by
  induction ss with
  | nil => cases hmem
  | cons t rest ih =>
    simp only [List.map_cons, List.nodup_cons] at hnd
    obtain ⟨hnotin, hndrest⟩ := hnd
    rcases List.mem_cons.mp hmem with heq | hmemrest
    · subst heq
      obtain ⟨n1, n2, n3, n4⟩ :=
        processMicropayments_not_mentioned now ratePerMin payOk rest s.id hnotin
      simp only [processMicropayments]
      rw [if_neg hexp, if_neg hsuf, if_neg (by simp [hfail])]
      refine ⟨List.mem_cons_self _ _, ?_, n4, n2⟩
      intro u hu hid
      rcases List.mem_cons.mp hu with hueq | humem
      · exact hueq
      · exact absurd (hid ▸ List.mem_map_of_mem GuestSession.id humem) n1
    · have htid : t.id ≠ s.id := by
        intro hc
        exact hnotin (hc ▸ List.mem_map_of_mem GuestSession.id hmemrest)
      obtain ⟨i1, i2, i3, i4⟩ := ih hndrest hmemrest
      simp only [processMicropayments]
      split_ifs with h1 h2 h3
      · exact ⟨i1, i2, i3, by simp [Ne.symm htid, i4]⟩
      · exact ⟨i1, i2, i3, by simp [Ne.symm htid, i4]⟩
      · refine ⟨List.mem_cons_of_mem _ i1, ?_, ?_, i4⟩
        · intro u hu hid
          rcases List.mem_cons.mp hu with hueq | humem
          · subst hueq
            exact absurd hid htid
          · exact i2 u humem hid
        · intro w hw
          rcases List.mem_cons.mp hw with hweq | hwmem
          · subst hweq
            exact htid
          · exact i3 w hwmem
      · refine ⟨List.mem_cons_of_mem _ i1, ?_, i3, i4⟩
        intro u hu hid
        rcases List.mem_cons.mp hu with hueq | humem
        · subst hueq
          exact absurd hid htid
        · exact i2 u humem hid

/-- Witness for claim C8: a tick whose payment fails for the single
session, which is left untouched. -/
theorem tick_payment_failure_frame_witness :
    ([GuestSession.mk 1 1000 0 0 100].map GuestSession.id).Nodup ∧
    GuestSession.mk 1 1000 0 0 100 ∈ [GuestSession.mk 1 1000 0 0 100] ∧
    ¬ (100 : Int) < 50 ∧ ¬ ((1000 : Int) - 0 < 200) ∧ (fun _ : Nat => false) 1 = false ∧
    (GuestSession.mk 1 1000 0 0 100 ∈
      (processMicropayments 50 200 (fun _ => false)
        [GuestSession.mk 1 1000 0 0 100]).sessions ∧
      (∀ w ∈ (processMicropayments 50 200 (fun _ => false)
        [GuestSession.mk 1 1000 0 0 100]).dbWrites, w.1 ≠ 1) ∧
      1 ∉ (processMicropayments 50 200 (fun _ => false)
        [GuestSession.mk 1 1000 0 0 100]).settlements) :=
  ⟨by decide, by decide, by decide, by decide, by decide,
    (tick_payment_failure_frame 50 200 (fun _ => false)
      [GuestSession.mk 1 1000 0 0 100] (GuestSession.mk 1 1000 0 0 100)
      (by decide) (by decide) (by decide) (by decide) (by decide)).1,
    (tick_payment_failure_frame 50 200 (fun _ => false)
      [GuestSession.mk 1 1000 0 0 100] (GuestSession.mk 1 1000 0 0 100)
      (by decide) (by decide) (by decide) (by decide) (by decide)).2.2.1,
    (tick_payment_failure_frame 50 200 (fun _ => false)
      [GuestSession.mk 1 1000 0 0 100] (GuestSession.mk 1 1000 0 0 100)
      (by decide) (by decide) (by decide) (by decide) (by decide)).2.2.2⟩

end AirFi
